import Mathlib

/-!
# Verification of the croncat fast-forward example's implied scheduler

The repository's single source file, `src/examples/src/croncat.rs`, is a
driver script exercising an implied system: a virtual clock that can be
fast-forwarded, a task registry, an agent ledger, a scheduler/matcher and
an execution proxy (the croncat manager contract).  The contract logic
itself ships only as a wasm blob, so the components below are modelled
from the specification, with every numeric observable pinned by the
assertions the example makes:

* `register_agent` is called with a deposit of 2260000000000000000000 yocto
  and the registered agent has status `Active` and `payable_account_id`
  defaulting to the caller (croncat.rs lines 104-122);
* after two successful `proxy_call`s the agent's ledgered balance is
  3860000000000000000000 yocto (lines 161-164);
* after `withdraw_task_balance` the ledgered balance is
  2260000000000000000000 yocto — the registration stake, not zero
  (lines 184-187), so the balance includes the stake and a withdrawal
  pays out only the accrued rewards (reward per execution
  = (3860 - 2260) / 2 = 800000000000000000000 yocto);
* `unregister_agent` then succeeds while the ledgered balance still equals
  the stake, and a subsequent `get_agent` returns `None` (lines 196-213).
-/

namespace Croncat

/-- Account identifiers are opaque strings (NEAR account ids). -/
abbrev AccountId := String

/-- Modelled from the spec: u64 arithmetic bound for the clock height;
clock arithmetic must never wrap, so crossing this bound is `Overflow`. -/
def U64_SIZE : Nat := 2 ^ 64

/-- Modelled from the spec: u128 arithmetic bound for balances;
balance arithmetic must never wrap, so crossing this bound is `Overflow`. -/
def U128_SIZE : Nat := 2 ^ 128

/-- Modelled from the spec: the minimum stake deposit for `register_agent`.
The spec gives no number; the value is the deposit the example registers
with (croncat.rs line 107), which the contract accepts. -/
def MIN_STAKE : Nat := 2260000000000000000000

/-- Modelled from the spec: the minimum deposit for `create_task`.
The spec gives no number; the value is the 1 NEAR the example attaches. -/
def MIN_TASK_DEPOSIT : Nat := 1000000000000000000000000

/-- Modelled from the spec: the fixed reward credited per successful task
execution.  Derived from the exercised assertions: two executions take the
balance from 2260000000000000000000 to 3860000000000000000000 yocto. -/
def REWARD : Nat := 800000000000000000000

/-- `AgentStatus` as deserialized in croncat.rs lines 21-25. -/
inductive AgentStatus where
  | Active
  | Pending
deriving DecidableEq, Repr

/-- The agent ledger entry (croncat.rs lines 33-43 and spec section 3).
`balance` includes the registration stake (see module header); `stake`
records the deposit supplied at registration, retained in the ledger
until unregistration. -/
structure Agent where
  status : AgentStatus
  payable_account_id : AccountId
  balance : Nat
  total_tasks_executed : Nat
  last_missed_slot : Nat
  stake : Nat
deriving DecidableEq, Repr

/-- Modelled from the spec: task lifecycle status. -/
inductive TaskStatus where
  | Active
  | Removed
deriving DecidableEq, Repr

/-- Modelled from the spec: a scheduled task.  `cadence` is the parsed
schedule expression, modelled as the slot length in blocks (the example's
cron string denotes a fixed recurring interval); a zero cadence is the
invalid-parse case.  `last_executed_height` is set by `mark_executed`. -/
structure Task where
  id : Nat
  owner_account : AccountId
  target_contract : AccountId
  entry_point : String
  cadence : Nat
  recurring : Bool
  last_executed_height : Option Nat
  status : TaskStatus
deriving DecidableEq, Repr

/-- Modelled from the spec: error taxonomy (spec section 7), plus
`AgentNotRegistered` for calls by an account with no ledger entry. -/
inductive CronError where
  | InvalidCadence
  | InsufficientDeposit
  | InsufficientStake
  | NothingToWithdraw
  | OutstandingBalance
  | NoTaskReady
  | ExecutionFailed
  | BudgetExceeded
  | Overflow
  | AgentNotRegistered
deriving DecidableEq, Repr

/-- Modelled from the spec: the execution proxy's tri-state result for the
delegated call into the target contract (spec section 4.5).  The target
contract is an external collaborator, so the result is an input. -/
inductive ExecResult where
  | Success
  | ExecutionFailed
  | BudgetExceeded
deriving DecidableEq, Repr

/-- Modelled from the spec: the persisted state — the scalar clock height
plus the two logical tables, Tasks by id and Agents by account
(spec section 6). -/
structure State where
  current_height : Nat
  next_task_id : Nat
  tasks : List Task
  agents : List (AccountId × Agent)
deriving DecidableEq, Repr

/-- The empty bootstrap state: clock at zero, both tables empty. -/
def State.init : State := ⟨0, 0, [], []⟩

/-- Modelled from the spec: `now()` is a pure read of the clock height. -/
def State.now (s : State) : Nat := s.current_height

/-- Modelled from the spec: `advance(n)` (the worker's `fast_forward`)
increases `current_height` by `n`; it fails only on u64 overflow and has
no side effect beyond the counter. -/
def State.advance (s : State) (n : Nat) : Except CronError State :=
  if s.current_height + n < U64_SIZE then
    .ok { s with current_height := s.current_height + n }
  else
    .error .Overflow

/-- Running a whole sequence of `advance` calls, failing on the first
overflow. -/
def State.advances (s : State) (ns : List Nat) : Except CronError State :=
  ns.foldlM State.advance s

/-- Point update of the agent table at one account. -/
def updateAgent (l : List (AccountId × Agent)) (a : AccountId)
    (f : Agent → Agent) : List (AccountId × Agent) :=
  l.map (fun p => if p.1 = a then (p.1, f p.2) else p)

/-- Read-only agent lookup (`get_agent` view, croncat.rs lines 113-119). -/
def State.get_agent (s : State) (a : AccountId) : Option Agent :=
  s.agents.lookup a

/-- Read-only task lookup (`get_task` of spec section 4.2). -/
def State.get_task (s : State) (id : Nat) : Option Task :=
  s.tasks.find? (fun t => t.id = id)

/-- Modelled from the spec: `register_agent` (croncat.rs lines 104-109).
A deposit below the minimum stake fails with `InsufficientStake` and
commits nothing; otherwise an entry is inserted with status `Active`,
`payable_account_id` defaulting to the caller when none is supplied, and
the deposit held in the ledgered balance as the agent's stake. -/
def State.register_agent (s : State) (caller : AccountId)
    (payable : Option AccountId) (deposit : Nat) : Except CronError State :=
  if deposit < MIN_STAKE then
    .error .InsufficientStake
  else
    .ok { s with
      agents := (caller,
        { status := .Active
          payable_account_id := payable.getD caller
          balance := deposit
          total_tasks_executed := 0
          last_missed_slot := 0
          stake := deposit }) :: s.agents }

/-- Modelled from the spec: `create_task` (croncat.rs lines 67-78).
Fails with `InvalidCadence` when the cadence expression is invalid
(modelled as a zero slot length) and with `InsufficientDeposit` when the
attached deposit is below the required minimum; otherwise registers a
fresh task id. -/
def State.create_task (s : State) (owner target : AccountId)
    (ep : String) (cadence : Nat) (recurring : Bool) (deposit : Nat) :
    Except CronError (Nat × State) :=
  if cadence = 0 then
    .error .InvalidCadence
  else if deposit < MIN_TASK_DEPOSIT then
    .error .InsufficientDeposit
  else
    .ok (s.next_task_id,
      { s with
        next_task_id := s.next_task_id + 1
        tasks :=
          { id := s.next_task_id
            owner_account := owner
            target_contract := target
            entry_point := ep
            cadence := cadence
            recurring := recurring
            last_executed_height := none
            status := .Active } :: s.tasks })

/-- The latest slot boundary of `t` at or before height `now`. -/
def Task.slot (t : Task) (now : Nat) : Nat := now / t.cadence * t.cadence

/-- Modelled from the spec: a task is due at `now` when it is active, its
cadence is valid, and its `last_executed_height` predates the latest slot
boundary at or before `now` (spec section 4.2). -/
def Task.isDue (t : Task) (now : Nat) : Bool :=
  t.status = .Active && 0 < t.cadence &&
    match t.last_executed_height with
    | none => true
    | some h => h < t.slot now

/-- Oldest-due-first ordering with ascending task id as the tie-break
(spec section 4.2). -/
def dueBefore (now : Nat) (t u : Task) : Bool :=
  t.slot now < u.slot now || (t.slot now = u.slot now && t.id ≤ u.id)

/-- Insertion into a list sorted by `dueBefore`. -/
def insertDue (now : Nat) (t : Task) : List Task → List Task
  | [] => [t]
  | u :: us =>
    if dueBefore now t u then t :: u :: us else u :: insertDue now t us

/-- Insertion sort by `dueBefore`. -/
def sortDue (now : Nat) (l : List Task) : List Task :=
  l.foldr (insertDue now) []

/-- Modelled from the spec: `list_due` — the due tasks, oldest-due-first
with ascending id as the deterministic tie-break. -/
def State.list_due (s : State) : List Task :=
  sortDue s.current_height (s.tasks.filter (fun t => t.isDue s.current_height))

/-- Modelled from the spec: `mark_executed` — records the execution height
on the task; a non-recurring task transitions to `Removed`. -/
def State.markExecuted (s : State) (id : Nat) (h : Nat) : State :=
  { s with
    tasks := s.tasks.map (fun t =>
      if t.id = id then
        { t with
          last_executed_height := some h
          status := if t.recurring then t.status else .Removed }
      else t) }

/-- Modelled from the spec: `credit` — increases the agent's ledgered
balance by the reward and bumps the execution counter; only invoked by
the scheduler after a verified successful execution. -/
def State.creditAgent (s : State) (a : AccountId) : State :=
  { s with
    agents := updateAgent s.agents a (fun ag =>
      { ag with
        balance := ag.balance + REWARD
        total_tasks_executed := ag.total_tasks_executed + 1 }) }

/-- Modelled from the spec: record a missed slot on the agent after a
failed execution attempt. -/
def State.recordMiss (s : State) (a : AccountId) (slot : Nat) : State :=
  { s with
    agents := updateAgent s.agents a (fun ag =>
      { ag with last_missed_slot := slot }) }

/-- Modelled from the spec: `proxy_call` (croncat.rs lines 134-149, spec
section 4.4).  Returns the post-state together with `none` on success or
the surfaced error.  Steps: read `now`, compute the due list; an empty
due list fails with `NoTaskReady` and commits nothing; otherwise the
single highest-priority due task is delegated to the execution proxy.
On `Success` the task is marked executed and the agent credited the fixed
reward (guarded against u128 balance overflow, which commits nothing);
on `ExecutionFailed`/`BudgetExceeded` nothing is marked or credited — the
missed slot is recorded on the agent and a recoverable error surfaced. -/
def State.proxy_call (s : State) (a : AccountId) (r : ExecResult) :
    State × Option CronError :=
  match s.list_due with
  | [] => (s, some .NoTaskReady)
  | t :: _ =>
    match s.get_agent a with
    | none => (s, some .AgentNotRegistered)
    | some ag =>
      match r with
      | .Success =>
        if ag.balance + REWARD < U128_SIZE then
          ((s.markExecuted t.id s.current_height).creditAgent a, none)
        else
          (s, some .Overflow)
      | .ExecutionFailed =>
        (s.recordMiss a (t.slot s.current_height), some .ExecutionFailed)
      | .BudgetExceeded =>
        (s.recordMiss a (t.slot s.current_height), some .BudgetExceeded)

/-- The ledger change a successful withdrawal commits: the agent's
balance drops back to the stake. -/
def State.withdrawCommit (s : State) (a : AccountId) : State :=
  { s with agents := updateAgent s.agents a (fun x => { x with balance := x.stake }) }

/-- Modelled from the spec: `withdraw_task_balance` (croncat.rs lines
168-172).  Pays out the accrued rewards — the ledgered balance in excess
of the stake — and leaves the stake ledgered (the example asserts the
post-withdraw balance equals the registration deposit, lines 184-187).
With no accrued rewards it fails with `NothingToWithdraw`. -/
def State.withdraw_task_balance (s : State) (a : AccountId) :
    Except CronError (Nat × State) :=
  match s.get_agent a with
  | none => .error .AgentNotRegistered
  | some ag =>
    if ag.stake < ag.balance then
      .ok (ag.balance - ag.stake, s.withdrawCommit a)
    else
      .error .NothingToWithdraw

/-- The table change unregistration commits: the agent's entry is removed
entirely. -/
def State.removeAgent (s : State) (a : AccountId) : State :=
  { s with agents := s.agents.filter (fun p => p.1 ≠ a) }

/-- Modelled from the spec: `unregister_agent` (croncat.rs lines 196-201).
Fails with `OutstandingBalance` while accrued rewards remain ledgered
(the caller must withdraw first); otherwise removes the agent entry
entirely and returns the remaining ledgered stake.  The example succeeds
here with the balance equal to the stake, so the guard is on the balance
in excess of the stake, not on a zero balance. -/
def State.unregister_agent (s : State) (a : AccountId) :
    Except CronError (Nat × State) :=
  match s.get_agent a with
  | none => .error .AgentNotRegistered
  | some ag =>
    if ag.stake < ag.balance then
      .error .OutstandingBalance
    else
      .ok (ag.balance, s.removeAgent a)

/-! ## Concrete replay of the exercised scenario

These states replay croncat.rs's `main`/`run_scheduled_tasks` inside the
model: create the recurring task, register the agent, fast-forward,
proxy-call twice, withdraw, unregister.  They serve as the concrete
inputs for witnesses and counterexamples. -/

/-- Collapse a state-valued `Except`, keeping the initial state on error
(used only to chain the concrete demo states below, all of which
succeed). -/
def okState (r : Except CronError State) : State :=
  r.toOption.getD State.init

/-- The example's agent account. -/
def demoAgent : AccountId := "agent-1.croncat.test"

/-- State after `create_task` of the recurring one-hour counter task. -/
def demoS1 : State :=
  okState ((State.init.create_task "croncat.test" "counter.test"
    "increment" 3600 true MIN_TASK_DEPOSIT).map Prod.snd)

/-- State after registering the agent with the exercised deposit. -/
def demoS2 : State :=
  okState (demoS1.register_agent demoAgent none MIN_STAKE)

/-- State after the first fast-forward of 4500 blocks. -/
def demoS3 : State := okState (demoS2.advance 4500)

/-- State after the first successful `proxy_call`. -/
def demoS4 : State := (demoS3.proxy_call demoAgent .Success).1

/-- State after the second fast-forward of 4500 blocks. -/
def demoS5 : State := okState (demoS4.advance 4500)

/-- State after the second successful `proxy_call`. -/
def demoS6 : State := (demoS5.proxy_call demoAgent .Success).1

/-- State after `withdraw_task_balance`. -/
def demoS7 : State :=
  match demoS6.withdraw_task_balance demoAgent with
  | .ok (_, s) => s
  | .error _ => State.init

/-- A second registered agent on top of the first fast-forward, for the
racing `proxy_call` scenario. -/
def demoRace : State :=
  okState (demoS3.register_agent "agent-2.croncat.test" none MIN_STAKE)

/-- The example's task, as registered by `demoS1`. -/
def demoTask : Task :=
  ⟨0, "croncat.test", "counter.test", "increment", 3600, true, none, .Active⟩

/-! ## Operation traces

The conservation property quantifies over whole histories of calls, so
the external entry points are reified as an operation type and a trace
interpreter.  A failed call commits nothing (spec section 7), so on an
error the pre-state is kept. -/

/-- One external call against the system. -/
inductive Op where
  | advanceOp (n : Nat)
  | createTaskOp (owner target : AccountId) (ep : String) (cadence : Nat)
      (recurring : Bool) (deposit : Nat)
  | registerOp (c : AccountId) (p : Option AccountId) (d : Nat)
  | proxyOp (c : AccountId) (r : ExecResult)
  | withdrawOp (c : AccountId)
  | unregisterOp (c : AccountId)
deriving DecidableEq, Repr

/-- Commit a state-valued result, keeping the pre-state on error. -/
def commit (s : State) (r : Except CronError State) : State :=
  match r with
  | .ok s1 => s1
  | .error _ => s

/-- Commit a payout-carrying result, keeping the pre-state on error. -/
def commitP (s : State) (r : Except CronError (Nat × State)) : State :=
  match r with
  | .ok q => q.2
  | .error _ => s

/-- Apply one call to the state; errors commit nothing. -/
def applyOp (s : State) : Op → State
  | .advanceOp n => commit s (s.advance n)
  | .createTaskOp owner target ep cadence recurring deposit =>
    commitP s (s.create_task owner target ep cadence recurring deposit)
  | .registerOp c p d => commit s (s.register_agent c p d)
  | .proxyOp c r => (s.proxy_call c r).1
  | .withdrawOp c => commitP s (s.withdraw_task_balance c)
  | .unregisterOp c => commitP s (s.unregister_agent c)

/-- Whether the call re-registers the observed account `a`. -/
def Op.registersAgent (a : AccountId) : Op → Bool
  | .registerOp c _ _ => c = a
  | _ => false

/-- The amount a fallible payout result pays out. -/
def payoutOf (r : Except CronError (Nat × State)) : Nat :=
  match r with
  | .ok q => q.1
  | .error _ => 0

/-- The amount a call pays out of account `a`'s ledgered balance. -/
def opWithdraws (a : AccountId) (s : State) : Op → Nat
  | .withdrawOp c => if c = a then payoutOf (s.withdraw_task_balance c) else 0
  | _ => 0

/-- Run a whole trace of calls. -/
def runTrace (s : State) : List Op → State
  | [] => s
  | op :: ops => runTrace (applyOp s op) ops

/-- Total amount withdrawn from account `a`'s ledgered balance over a
trace. -/
def withdrawnDuring (a : AccountId) (s : State) : List Op → Nat
  | [] => 0
  | op :: ops => opWithdraws a s op + withdrawnDuring a (applyOp s op) ops

/-- The ledger conservation invariant for account `a` registered with
deposit `d`: whenever the agent is present, its stake is the deposit and
its ledgered balance plus everything already withdrawn equals the deposit
plus the fixed reward per execution counted. -/
def agentInv (a : AccountId) (d : Nat) (s : State) (w : Nat) : Prop :=
  ∀ ag, s.get_agent a = some ag →
    ag.stake = d ∧ ag.balance + w = d + ag.total_tasks_executed * REWARD

/-- The trace of the exercised scenario after registration: fast-forward,
one successful execution, one withdrawal. -/
def demoOps : List Op :=
  [.advanceOp 4500, .proxyOp demoAgent .Success, .withdrawOp demoAgent]

end Croncat

deriving instance DecidableEq for Except

namespace Croncat

/-! ## Helper lemmas on the agent table and the due list -/

theorem lookup_cons_self {a : AccountId} {ag : Agent}
    {l : List (AccountId × Agent)} :
    List.lookup a ((a, ag) :: l) = some ag := by
  simp [List.lookup]

theorem lookup_cons_ne {a c : AccountId} {ag : Agent}
    {l : List (AccountId × Agent)} (h : a ≠ c) :
    List.lookup a ((c, ag) :: l) = List.lookup a l := by
  have hb : (a == c) = false := beq_eq_false_iff_ne.mpr h
  simp [List.lookup, hb]

theorem lookup_updateAgent_self (l : List (AccountId × Agent)) (a : AccountId)
    (f : Agent → Agent) :
    List.lookup a (updateAgent l a f) = (List.lookup a l).map f := by
  induction l with
  | nil => rfl
  | cons p t ih =>
    obtain ⟨k, v⟩ := p
    show List.lookup a ((if k = a then (k, f v) else (k, v)) :: updateAgent t a f)
      = (List.lookup a ((k, v) :: t)).map f
    by_cases h : k = a
    · subst h
      rw [if_pos rfl, lookup_cons_self, lookup_cons_self]
      rfl
    · rw [if_neg h, lookup_cons_ne (Ne.symm h), lookup_cons_ne (Ne.symm h), ih]

theorem lookup_updateAgent_ne (l : List (AccountId × Agent)) (a b : AccountId)
    (f : Agent → Agent) (h : b ≠ a) :
    List.lookup b (updateAgent l a f) = List.lookup b l := by
  induction l with
  | nil => rfl
  | cons p t ih =>
    obtain ⟨k, v⟩ := p
    show List.lookup b ((if k = a then (k, f v) else (k, v)) :: updateAgent t a f)
      = List.lookup b ((k, v) :: t)
    by_cases hk : k = a
    · subst hk
      rw [if_pos rfl, lookup_cons_ne h, lookup_cons_ne h, ih]
    · by_cases hbk : b = k
      · subst hbk
        rw [if_neg hk, lookup_cons_self, lookup_cons_self]
      · rw [if_neg hk, lookup_cons_ne hbk, lookup_cons_ne hbk, ih]

theorem lookup_filter_self (l : List (AccountId × Agent)) (a : AccountId) :
    List.lookup a (l.filter (fun p => p.1 ≠ a)) = none := by
  induction l with
  | nil => rfl
  | cons p t ih =>
    obtain ⟨k, v⟩ := p
    rw [List.filter_cons]
    by_cases hk : k = a
    · subst hk
      simpa using ih
    · have hd : (decide ((k, v).1 ≠ a)) = true := by simpa using hk
      rw [if_pos hd, lookup_cons_ne (Ne.symm hk), ih]

theorem lookup_filter_ne (l : List (AccountId × Agent)) (a b : AccountId)
    (h : b ≠ a) :
    List.lookup b (l.filter (fun p => p.1 ≠ a)) = List.lookup b l := by
  induction l with
  | nil => rfl
  | cons p t ih =>
    obtain ⟨k, v⟩ := p
    rw [List.filter_cons]
    by_cases hk : k = a
    · subst hk
      have hd : (decide ((k, v).1 ≠ k)) = false := by simp
      rw [if_neg (by simp [hd]), lookup_cons_ne h, ih]
    · have hd : (decide ((k, v).1 ≠ a)) = true := by simpa using hk
      by_cases hbk : b = k
      · subst hbk
        rw [if_pos hd, lookup_cons_self, lookup_cons_self]
      · rw [if_pos hd, lookup_cons_ne hbk, lookup_cons_ne hbk, ih]

theorem mem_insertDue (now : Nat) (t x : Task) (l : List Task) :
    x ∈ insertDue now t l ↔ x = t ∨ x ∈ l := by
  induction l with
  | nil => simp [insertDue]
  | cons u us ih =>
    simp only [insertDue]
    split
    · simp [List.mem_cons]
    · simp only [List.mem_cons, ih]
      tauto

theorem insertDue_ne_nil (now : Nat) (t : Task) (l : List Task) :
    insertDue now t l ≠ [] := by
  cases l with
  | nil => simp [insertDue]
  | cons u us =>
    simp only [insertDue]
    split <;> simp

theorem mem_sortDue (now : Nat) (x : Task) (l : List Task) :
    x ∈ sortDue now l ↔ x ∈ l := by
  induction l with
  | nil => simp [sortDue]
  | cons t ts ih =>
    simp only [sortDue, List.foldr] at *
    rw [mem_insertDue, ih]
    simp [List.mem_cons]

theorem sortDue_nil (now : Nat) : sortDue now [] = [] := rfl

/-- A successful registration, spelled out. -/
theorem register_agent_eq_ok (s : State) (c : AccountId) (p : Option AccountId)
    (d : Nat) (h : MIN_STAKE ≤ d) :
    s.register_agent c p d =
      .ok { s with agents :=
        (c, ⟨.Active, p.getD c, d, 0, 0, d⟩) :: s.agents } := by
  unfold State.register_agent
  rw [if_neg (by omega)]

/-- `proxy_call` with an empty due list: `NoTaskReady`, nothing committed. -/
theorem proxy_call_of_no_due (s : State) (a : AccountId) (r : ExecResult)
    (h : s.list_due = []) : s.proxy_call a r = (s, some .NoTaskReady) := by
  unfold State.proxy_call
  rw [h]

/-- Crediting does not change the due list (it touches only the agent
table). -/
theorem list_due_creditAgent (s : State) (a : AccountId) :
    (s.creditAgent a).list_due = s.list_due := rfl

/-- After executing the single due task, nothing is due any more at the
same height: the executed task's `last_executed_height` no longer
predates the current slot boundary, and every other task was already not
due. -/
theorem list_due_after_execute (s : State) (t : Task) (a : AccountId)
    (hdue : s.list_due = [t]) :
    ((s.markExecuted t.id s.current_height).creditAgent a).list_due = [] := by
  rw [list_due_creditAgent]
  unfold State.list_due at hdue ⊢
  have hfilter : ((s.markExecuted t.id s.current_height).tasks.filter
      (fun u => u.isDue s.current_height)) = [] := by
    rw [List.filter_eq_nil_iff]
    intro u hu
    simp only [State.markExecuted, List.mem_map] at hu
    obtain ⟨u0, hu0, rfl⟩ := hu
    by_cases hid : u0.id = t.id
    · rw [if_pos hid]
      simp only [Task.isDue, Task.slot, Bool.and_eq_true, decide_eq_true_eq]
      rintro ⟨⟨-, -⟩, hlt⟩
      exact absurd hlt (Nat.not_lt.mpr (Nat.div_mul_le_self _ _))
    · rw [if_neg hid]
      intro hdu
      have hmem : u0 ∈ sortDue s.current_height
          (s.tasks.filter (fun x => x.isDue s.current_height)) :=
        (mem_sortDue _ _ _).mpr (List.mem_filter.mpr ⟨hu0, hdu⟩)
      rw [hdue] at hmem
      simp only [List.mem_singleton] at hmem
      exact hid (by rw [hmem])
  show sortDue s.current_height ((s.markExecuted t.id s.current_height).tasks.filter
    (fun u => u.isDue s.current_height)) = []
  rw [hfilter, sortDue_nil]


/-! ## Characterizations of the guarded operations -/

/-- A successful withdrawal, spelled out. -/
theorem withdraw_ok (s : State) (c : AccountId) (ag0 : Agent)
    (hga : s.get_agent c = some ag0) (hlt : ag0.stake < ag0.balance) :
    s.withdraw_task_balance c = .ok (ag0.balance - ag0.stake, s.withdrawCommit c) := by
  unfold State.withdraw_task_balance
  rw [hga]
  simp [hlt]

/-- A withdrawal with no accrued rewards, spelled out. -/
theorem withdraw_err (s : State) (c : AccountId) (ag0 : Agent)
    (hga : s.get_agent c = some ag0) (hge : ag0.balance ≤ ag0.stake) :
    s.withdraw_task_balance c = .error .NothingToWithdraw := by
  unfold State.withdraw_task_balance
  rw [hga]
  simp [Nat.not_lt.mpr hge]

/-- A withdrawal by an unknown account, spelled out. -/
theorem withdraw_none (s : State) (c : AccountId)
    (hga : s.get_agent c = none) :
    s.withdraw_task_balance c = .error .AgentNotRegistered := by
  unfold State.withdraw_task_balance
  rw [hga]

/-- A successful unregistration, spelled out. -/
theorem unregister_ok (s : State) (c : AccountId) (ag0 : Agent)
    (hga : s.get_agent c = some ag0) (hge : ag0.balance ≤ ag0.stake) :
    s.unregister_agent c = .ok (ag0.balance, s.removeAgent c) := by
  unfold State.unregister_agent
  rw [hga]
  simp [Nat.not_lt.mpr hge]

/-- A blocked unregistration, spelled out. -/
theorem unregister_outstanding (s : State) (c : AccountId) (ag0 : Agent)
    (hga : s.get_agent c = some ag0) (hlt : ag0.stake < ag0.balance) :
    s.unregister_agent c = .error .OutstandingBalance := by
  unfold State.unregister_agent
  rw [hga]
  simp [hlt]

/-- An unregistration by an unknown account, spelled out. -/
theorem unregister_none (s : State) (c : AccountId)
    (hga : s.get_agent c = none) :
    s.unregister_agent c = .error .AgentNotRegistered := by
  unfold State.unregister_agent
  rw [hga]

/-! ## Preservation of the conservation invariant -/

/-- The invariant only looks at the observed account's table entry. -/
theorem agentInv_mono (a : AccountId) (d : Nat) {s s1 : State} {w : Nat}
    (h : List.lookup a s1.agents = List.lookup a s.agents)
    (hinv : agentInv a d s w) : agentInv a d s1 w := by
  intro ag hag
  apply hinv ag
  have hag2 : List.lookup a s1.agents = some ag := hag
  rw [h] at hag2
  exact hag2

/-- Crediting one reward preserves the invariant: the balance and the
execution counter move together. -/
theorem agentInv_creditAgent (a c : AccountId) (d : Nat) (s : State)
    (w : Nat) (hinv : agentInv a d s w) :
    agentInv a d (s.creditAgent c) w := by
  intro ag hag
  by_cases hac : a = c
  · subst hac
    have hag2 : List.lookup a (updateAgent s.agents a (fun x => { x with balance := x.balance + REWARD, total_tasks_executed := x.total_tasks_executed + 1 })) = some ag := hag
    rw [lookup_updateAgent_self] at hag2
    cases hga : s.get_agent a with
    | none =>
      have hga2 : List.lookup a s.agents = none := hga
      rw [hga2] at hag2
      exact absurd hag2 (by simp)
    | some ag0 =>
      have hga2 : List.lookup a s.agents = some ag0 := hga
      rw [hga2] at hag2
      simp only [Option.map_some', Option.some.injEq] at hag2
      obtain ⟨hst, hbal⟩ := hinv ag0 hga
      subst hag2
      refine ⟨hst, ?_⟩
      dsimp only
      rw [Nat.add_mul, Nat.one_mul]
      omega
  · have hag2 : List.lookup a (updateAgent s.agents c (fun x => { x with balance := x.balance + REWARD, total_tasks_executed := x.total_tasks_executed + 1 })) = some ag := hag
    rw [lookup_updateAgent_ne s.agents c a _ hac] at hag2
    exact hinv ag hag2

/-- Recording a missed slot preserves the invariant: the balance, stake
and execution counter are untouched. -/
theorem agentInv_recordMiss (a c : AccountId) (d : Nat) (s : State)
    (w slot : Nat) (hinv : agentInv a d s w) :
    agentInv a d (s.recordMiss c slot) w := by
  intro ag hag
  by_cases hac : a = c
  · subst hac
    have hag2 : List.lookup a (updateAgent s.agents a (fun x => { x with last_missed_slot := slot })) = some ag := hag
    rw [lookup_updateAgent_self] at hag2
    cases hga : s.get_agent a with
    | none =>
      have hga2 : List.lookup a s.agents = none := hga
      rw [hga2] at hag2
      exact absurd hag2 (by simp)
    | some ag0 =>
      have hga2 : List.lookup a s.agents = some ag0 := hga
      rw [hga2] at hag2
      simp only [Option.map_some', Option.some.injEq] at hag2
      obtain ⟨hst, hbal⟩ := hinv ag0 hga
      subst hag2
      exact ⟨hst, hbal⟩
  · have hag2 : List.lookup a (updateAgent s.agents c (fun x => { x with last_missed_slot := slot })) = some ag := hag
    rw [lookup_updateAgent_ne s.agents c a _ hac] at hag2
    exact hinv ag hag2

/-- One call preserves the conservation invariant, with the withdrawal
accumulator advanced by whatever the call paid out of the account. -/
theorem agentInv_applyOp (a : AccountId) (d : Nat) (s : State) (w : Nat)
    (op : Op) (hop : op.registersAgent a = false) (hinv : agentInv a d s w) :
    agentInv a d (applyOp s op) (w + opWithdraws a s op) := by
  cases op with
  | advanceOp n =>
    simp only [opWithdraws, Nat.add_zero]
    refine agentInv_mono a d ?_ hinv
    show List.lookup a (commit s (s.advance n)).agents = List.lookup a s.agents
    unfold State.advance
    by_cases hc : s.current_height + n < U64_SIZE
    · rw [if_pos hc]
      rfl
    · rw [if_neg hc]
      rfl
  | createTaskOp owner target ep cadence recurring deposit =>
    simp only [opWithdraws, Nat.add_zero]
    refine agentInv_mono a d ?_ hinv
    show List.lookup a
      (commitP s (s.create_task owner target ep cadence recurring deposit)).agents
      = List.lookup a s.agents
    unfold State.create_task
    by_cases h0 : cadence = 0
    · rw [if_pos h0]
      rfl
    · rw [if_neg h0]
      by_cases h1 : deposit < MIN_TASK_DEPOSIT
      · rw [if_pos h1]
        rfl
      · rw [if_neg h1]
        rfl
  | registerOp c p dd =>
    simp only [Op.registersAgent, decide_eq_false_iff_not] at hop
    simp only [opWithdraws, Nat.add_zero]
    refine agentInv_mono a d ?_ hinv
    show List.lookup a (commit s (s.register_agent c p dd)).agents
      = List.lookup a s.agents
    unfold State.register_agent
    by_cases h0 : dd < MIN_STAKE
    · rw [if_pos h0]
      rfl
    · rw [if_neg h0]
      exact lookup_cons_ne (Ne.symm hop)
  | proxyOp c r =>
    simp only [opWithdraws, Nat.add_zero]
    show agentInv a d (s.proxy_call c r).1 w
    unfold State.proxy_call
    cases hdue : s.list_due with
    | nil => exact hinv
    | cons t rest =>
      cases hgc : s.get_agent c with
      | none => exact hinv
      | some ag0 =>
        cases r with
        | Success =>
          show agentInv a d
            (if ag0.balance + REWARD < U128_SIZE then
              ((s.markExecuted t.id s.current_height).creditAgent c, none)
            else (s, some CronError.Overflow)).1 w
          by_cases hov : ag0.balance + REWARD < U128_SIZE
          · rw [if_pos hov]
            exact agentInv_creditAgent a c d _ w (agentInv_mono a d rfl hinv)
          · rw [if_neg hov]
            exact hinv
        | ExecutionFailed =>
          exact agentInv_recordMiss a c d s w _ hinv
        | BudgetExceeded =>
          exact agentInv_recordMiss a c d s w _ hinv
  | withdrawOp c =>
    by_cases hac : c = a
    · subst hac
      show agentInv c d (commitP s (s.withdraw_task_balance c))
        (w + opWithdraws c s (Op.withdrawOp c))
      simp only [opWithdraws, if_true]
      cases hga : s.get_agent c with
      | none =>
        rw [withdraw_none s c hga]
        show agentInv c d s (w + 0)
        rw [Nat.add_zero]
        exact hinv
      | some ag0 =>
        by_cases hlt : ag0.stake < ag0.balance
        · rw [withdraw_ok s c ag0 hga hlt]
          show agentInv c d (s.withdrawCommit c) (w + (ag0.balance - ag0.stake))
          intro ag hag
          have hag2 : List.lookup c (updateAgent s.agents c (fun x => { x with balance := x.stake })) = some ag := hag
          rw [lookup_updateAgent_self] at hag2
          have hga2 : List.lookup c s.agents = some ag0 := hga
          rw [hga2] at hag2
          simp only [Option.map_some', Option.some.injEq] at hag2
          obtain ⟨hst, hbal⟩ := hinv ag0 hga
          subst hag2
          refine ⟨hst, ?_⟩
          dsimp only
          omega
        · rw [withdraw_err s c ag0 hga (Nat.not_lt.mp hlt)]
          show agentInv c d s (w + 0)
          rw [Nat.add_zero]
          exact hinv
    · show agentInv a d (commitP s (s.withdraw_task_balance c))
        (w + opWithdraws a s (Op.withdrawOp c))
      simp only [opWithdraws]
      rw [if_neg hac]
      cases hga : s.get_agent c with
      | none =>
        rw [withdraw_none s c hga]
        show agentInv a d s (w + 0)
        rw [Nat.add_zero]
        exact hinv
      | some ag0 =>
        by_cases hlt : ag0.stake < ag0.balance
        · rw [withdraw_ok s c ag0 hga hlt]
          show agentInv a d (s.withdrawCommit c) (w + 0)
          rw [Nat.add_zero]
          refine agentInv_mono a d ?_ hinv
          exact lookup_updateAgent_ne s.agents c a
            (fun x => { x with balance := x.stake }) (fun h => hac h.symm)
        · rw [withdraw_err s c ag0 hga (Nat.not_lt.mp hlt)]
          show agentInv a d s (w + 0)
          rw [Nat.add_zero]
          exact hinv
  | unregisterOp c =>
    simp only [opWithdraws, Nat.add_zero]
    show agentInv a d (commitP s (s.unregister_agent c)) w
    cases hga : s.get_agent c with
    | none =>
      rw [unregister_none s c hga]
      exact hinv
    | some ag0 =>
      by_cases hlt : ag0.stake < ag0.balance
      · rw [unregister_outstanding s c ag0 hga hlt]
        exact hinv
      · rw [unregister_ok s c ag0 hga (Nat.not_lt.mp hlt)]
        by_cases hac : a = c
        · subst hac
          intro ag hag
          have hag2 : List.lookup a (s.agents.filter (fun p => p.1 ≠ a)) = some ag := hag
          rw [lookup_filter_self] at hag2
          exact absurd hag2 (by simp)
        · refine agentInv_mono a d ?_ hinv
          exact lookup_filter_ne s.agents c a hac

/-- A whole trace preserves the conservation invariant. -/
theorem agentInv_runTrace (a : AccountId) (d : Nat) :
    ∀ (ops : List Op) (s : State) (w : Nat),
    (∀ op ∈ ops, op.registersAgent a = false) → agentInv a d s w →
    agentInv a d (runTrace s ops) (w + withdrawnDuring a s ops) := by
  intro ops
  induction ops with
  | nil =>
    intro s w _ hinv
    simpa [runTrace, withdrawnDuring] using hinv
  | cons op ops ih =>
    intro s w hops hinv
    have hstep := agentInv_applyOp a d s w op (hops op (by simp)) hinv
    have htail := ih (applyOp s op) (w + opWithdraws a s op)
      (fun x hx => hops x (by simp [hx])) hstep
    show agentInv a d (runTrace (applyOp s op) ops)
      (w + (opWithdraws a s op + withdrawnDuring a (applyOp s op) ops))
    rw [← Nat.add_assoc]
    exact htail

/-! ## The claims -/

/-- C1 (amended): for every registered agent whose ledgered balance
exceeds its stake, `withdraw_task_balance` returns exactly the balance in
excess of the stake (the accrued rewards) and leaves the agent's ledgered
balance equal to the stake.  (The claim as stated — returns the full
pre-withdraw balance and zeroes the ledgered balance — fails on the
exercised behavior; see the counterexample.) -/
theorem croncat_C1 (s : State) (a : AccountId) (ag : Agent)
    (hag : s.get_agent a = some ag) (hlt : ag.stake < ag.balance) :
    (s.withdraw_task_balance a).map Prod.fst = .ok (ag.balance - ag.stake) ∧
    (s.withdraw_task_balance a).map
      (fun q => (q.2.get_agent a).map Agent.balance) = .ok (some ag.stake) := by
  rw [withdraw_ok s a ag hag hlt]
  refine ⟨rfl, ?_⟩
  have hl : (s.withdrawCommit a).get_agent a
      = (s.get_agent a).map (fun x => { x with balance := x.stake }) :=
    lookup_updateAgent_self s.agents a (fun x => { x with balance := x.stake })
  show Except.ok (((s.withdrawCommit a).get_agent a).map Agent.balance)
    = Except.ok (some ag.stake)
  rw [hl, hag]
  rfl

/-- Witness for C1: in the exercised state the withdrawal pays out the
1600000000000000000000 yocto of accrued rewards and leaves the
2260000000000000000000 yocto stake ledgered. -/
theorem croncat_C1_witness :
    (demoS6.withdraw_task_balance demoAgent).map Prod.fst
      = .ok 1600000000000000000000 ∧
    (demoS6.withdraw_task_balance demoAgent).map
      (fun q => (q.2.get_agent demoAgent).map Agent.balance)
      = .ok (some 2260000000000000000000) := by
  have h := croncat_C1 demoS6 demoAgent
    ⟨.Active, demoAgent, 3860000000000000000000, 2, 0, 2260000000000000000000⟩
    (by decide) (by decide)
  exact ⟨h.1, h.2⟩

/-- C1 counterexample: in the exercised state the agent's balance is
positive (3860000000000000000000 yocto), yet the withdrawal returns
1600000000000000000000 — not the pre-withdraw balance — and the
post-withdraw ledgered balance is 2260000000000000000000, not zero. -/
theorem croncat_C1_counterexample :
    (demoS6.get_agent demoAgent).map Agent.balance
      = some 3860000000000000000000 ∧
    (demoS6.withdraw_task_balance demoAgent).map Prod.fst
      = .ok 1600000000000000000000 ∧
    (demoS6.withdraw_task_balance demoAgent).map Prod.fst
      ≠ .ok 3860000000000000000000 ∧
    (demoS6.withdraw_task_balance demoAgent).map
      (fun q => (q.2.get_agent demoAgent).map Agent.balance)
      ≠ .ok (some 0) := by
  refine ⟨by decide, by decide, by decide, by decide⟩

/-- C2 (amended): registration with a deposit at or above the minimum
stake succeeds and inserts an entry with status `Active` whose ledgered
balance equals the deposit (held as the stake); a deposit below the
minimum fails with `InsufficientStake` and inserts nothing.  (The claim's
"balance of zero" fails: the deposit itself is ledgered; see the
counterexample.) -/
theorem croncat_C2 (s : State) (c : AccountId) (p : Option AccountId)
    (d : Nat) :
    (MIN_STAKE ≤ d → s.register_agent c p d
      = .ok { s with agents := (c, ⟨.Active, p.getD c, d, 0, 0, d⟩) :: s.agents }) ∧
    (d < MIN_STAKE → s.register_agent c p d = .error .InsufficientStake) := by
  constructor
  · intro h
    exact register_agent_eq_ok s c p d h
  · intro h
    unfold State.register_agent
    rw [if_pos h]

/-- Witness for C2: a registration at exactly the minimum stake succeeds
with the spelled-out table, and one of 1 yocto fails. -/
theorem croncat_C2_witness :
    State.init.register_agent "a.test" none MIN_STAKE
      = .ok { State.init with
          agents := [("a.test", ⟨.Active, "a.test", MIN_STAKE, 0, 0, MIN_STAKE⟩)] } ∧
    State.init.register_agent "a.test" none 1 = .error .InsufficientStake :=
  ⟨(croncat_C2 State.init "a.test" none MIN_STAKE).1 (by decide),
   (croncat_C2 State.init "a.test" none 1).2 (by decide)⟩

/-- C2 counterexample: the exercised registration (deposit equal to the
minimum stake) succeeds, but the inserted agent's ledgered balance is the
deposit, not zero. -/
theorem croncat_C2_counterexample :
    demoS1.register_agent demoAgent none MIN_STAKE = .ok demoS2 ∧
    (demoS2.get_agent demoAgent).map Agent.balance
      = some 2260000000000000000000 ∧
    (demoS2.get_agent demoAgent).map Agent.balance ≠ some 0 := by
  refine ⟨by decide, by decide, by decide⟩

/-- C9: registering without a `payable_account_id` argument defaults the
registered agent's `payable_account_id` to the caller's account id, as
observed through `get_agent`. -/
theorem croncat_C9 (s : State) (c : AccountId) (d : Nat)
    (h : MIN_STAKE ≤ d) :
    (s.register_agent c none d).map
      (fun s1 => (s1.get_agent c).map Agent.payable_account_id)
      = .ok (some c) := by
  rw [register_agent_eq_ok s c none d h]
  show Except.ok ((List.lookup c
      ((c, (⟨.Active, (none : Option AccountId).getD c, d, 0, 0, d⟩ : Agent))
        :: s.agents)).map Agent.payable_account_id)
    = Except.ok (some c)
  rw [lookup_cons_self]
  rfl

/-- Witness for C9 at the exercised deposit. -/
theorem croncat_C9_witness :
    (State.init.register_agent "agent-9.test" none MIN_STAKE).map
      (fun s1 => (s1.get_agent "agent-9.test").map Agent.payable_account_id)
      = .ok (some "agent-9.test") :=
  croncat_C9 State.init "agent-9.test" MIN_STAKE (by decide)

/-- C10: the registration deposit is held in the ledger as the agent's
stake, and `withdraw_task_balance` transfers out only the accrued
rewards: it pays the pre-withdraw balance minus the stake, and afterwards
the ledgered balance (and the recorded stake) still equal the stake. -/
theorem croncat_C10 (s s0 : State) (a c : AccountId) (p : Option AccountId)
    (dep : Nat) (ag : Agent) :
    (MIN_STAKE ≤ dep →
      (s0.register_agent c p dep).map
        (fun s1 => (s1.get_agent c).map Agent.stake) = .ok (some dep)) ∧
    (s.get_agent a = some ag → ag.stake < ag.balance →
      (s.withdraw_task_balance a).map Prod.fst = .ok (ag.balance - ag.stake) ∧
      (s.withdraw_task_balance a).map
        (fun q => (q.2.get_agent a).map Agent.balance) = .ok (some ag.stake) ∧
      (s.withdraw_task_balance a).map
        (fun q => (q.2.get_agent a).map Agent.stake) = .ok (some ag.stake)) := by
  constructor
  · intro h
    rw [register_agent_eq_ok s0 c p dep h]
    show Except.ok ((List.lookup c
        ((c, (⟨.Active, p.getD c, dep, 0, 0, dep⟩ : Agent))
          :: s0.agents)).map Agent.stake)
      = Except.ok (some dep)
    rw [lookup_cons_self]
    rfl
  · intro hag hlt
    rw [withdraw_ok s a ag hag hlt]
    have hl : (s.withdrawCommit a).get_agent a
        = (s.get_agent a).map (fun x => { x with balance := x.stake }) :=
      lookup_updateAgent_self s.agents a (fun x => { x with balance := x.stake })
    refine ⟨rfl, ?_, ?_⟩
    · show Except.ok (((s.withdrawCommit a).get_agent a).map Agent.balance)
        = Except.ok (some ag.stake)
      rw [hl, hag]
      rfl
    · show Except.ok (((s.withdrawCommit a).get_agent a).map Agent.stake)
        = Except.ok (some ag.stake)
      rw [hl, hag]
      rfl

/-- C4 (amended): `unregister_agent` fails with `OutstandingBalance` —
committing nothing, so the entry remains — whenever the ledgered balance
exceeds the stake (accrued rewards not yet withdrawn); when no accrued
rewards remain it removes the agent entry entirely (a subsequent
`get_agent` returns `none`) and returns the remaining ledgered stake.
(As stated — failing whenever the balance is non-zero — the claim fails:
the exercised unregistration succeeds while the ledgered balance still
equals the stake; see the counterexample.) -/
theorem croncat_C4 (s : State) (a : AccountId) (ag : Agent)
    (hag : s.get_agent a = some ag) :
    (ag.stake < ag.balance →
      s.unregister_agent a = .error .OutstandingBalance) ∧
    (ag.balance ≤ ag.stake →
      s.unregister_agent a = .ok (ag.balance, s.removeAgent a) ∧
      (s.removeAgent a).get_agent a = none) := by
  constructor
  · intro hlt
    exact unregister_outstanding s a ag hag hlt
  · intro hge
    refine ⟨unregister_ok s a ag hag hge, ?_⟩
    show List.lookup a (s.agents.filter (fun p => p.1 ≠ a)) = none
    exact lookup_filter_self s.agents a

/-- Witness for C4: with accrued rewards still ledgered the exercised
unregistration is refused; after the withdrawal it succeeds. -/
theorem croncat_C4_witness :
    demoS6.unregister_agent demoAgent = .error .OutstandingBalance ∧
    demoS7.unregister_agent demoAgent
      = .ok (2260000000000000000000, demoS7.removeAgent demoAgent) := by
  constructor
  · exact (croncat_C4 demoS6 demoAgent
      ⟨.Active, demoAgent, 3860000000000000000000, 2, 0, 2260000000000000000000⟩
      (by decide)).1 (by decide)
  · exact ((croncat_C4 demoS7 demoAgent
      ⟨.Active, demoAgent, 2260000000000000000000, 2, 0, 2260000000000000000000⟩
      (by decide)).2 (by decide)).1

/-- C4 counterexample: after the exercised withdrawal the agent's
ledgered balance is the stake — non-zero — yet `unregister_agent`
succeeds, returns the stake and removes the entry. -/
theorem croncat_C4_counterexample :
    (demoS7.get_agent demoAgent).map Agent.balance
      = some 2260000000000000000000 ∧
    (demoS7.get_agent demoAgent).map Agent.balance ≠ some 0 ∧
    (demoS7.unregister_agent demoAgent).map Prod.fst
      = .ok 2260000000000000000000 ∧
    (demoS7.unregister_agent demoAgent).map
      (fun q => q.2.get_agent demoAgent) = .ok none := by
  refine ⟨by decide, by decide, by decide, by decide⟩

/-- A successful run of `advances` accumulates the heights and touches
nothing else. -/
theorem advances_spec (ns : List Nat) : ∀ (s s1 : State),
    s.advances ns = .ok s1 →
    s1.current_height = s.current_height + ns.sum ∧
    s1.tasks = s.tasks ∧ s1.agents = s.agents ∧
    s1.next_task_id = s.next_task_id := by
  induction ns with
  | nil =>
    intro s s1 h
    have h2 : (Except.ok s : Except CronError State) = .ok s1 := h
    simp only [Except.ok.injEq] at h2
    subst h2
    simp
  | cons n ns ih =>
    intro s s1 h
    unfold State.advances at h
    rw [List.foldlM_cons] at h
    unfold State.advance at h
    by_cases hc : s.current_height + n < U64_SIZE
    · rw [if_pos hc] at h
      have h2 : State.advances
          { s with current_height := s.current_height + n } ns = .ok s1 := h
      obtain ⟨h3, h4, h5, h6⟩ := ih _ _ h2
      refine ⟨?_, h4, h5, h6⟩
      rw [h3]
      show s.current_height + n + ns.sum = s.current_height + (n :: ns).sum
      rw [List.sum_cons]
      omega
    · rw [if_neg hc] at h
      have h2 : (Except.error CronError.Overflow : Except CronError State)
          = .ok s1 := h
      exact absurd h2 (by simp)

/-- C6: from the initial clock state, any successful sequence of
`advance` calls leaves `now()` at the sum of all the arguments and
touches nothing else; each single `advance` increases `current_height`
by exactly its argument and fails exactly when the u64 height would
overflow. -/
theorem croncat_C6 :
    (∀ (ns : List Nat) (s1 : State), State.init.advances ns = .ok s1 →
      s1.now = ns.sum ∧ s1.tasks = [] ∧ s1.agents = [] ∧
      s1.next_task_id = 0) ∧
    (∀ (s : State) (n : Nat),
      (s.current_height + n < U64_SIZE →
        s.advance n = .ok { s with current_height := s.current_height + n }) ∧
      (U64_SIZE ≤ s.current_height + n →
        s.advance n = .error .Overflow)) := by
  constructor
  · intro ns s1 h
    obtain ⟨h1, h2, h3, h4⟩ := advances_spec ns State.init s1 h
    refine ⟨?_, h2, h3, h4⟩
    show s1.current_height = ns.sum
    rw [h1]
    show 0 + ns.sum = ns.sum
    omega
  · intro s n
    constructor
    · intro hc
      unfold State.advance
      rw [if_pos hc]
    · intro hc
      unfold State.advance
      rw [if_neg (Nat.not_lt.mpr hc)]

/-- Witness for C6: two fast-forwards of 4500 blocks from the initial
state land `now()` on 9000, and a single advance from the initial state
is spelled out. -/
theorem croncat_C6_witness :
    ((⟨9000, 0, [], []⟩ : State).now = ([4500, 4500] : List Nat).sum) ∧
    State.init.advance 4500 = .ok ⟨4500, 0, [], []⟩ := by
  constructor
  · exact (croncat_C6.1 [4500, 4500] ⟨9000, 0, [], []⟩ (by decide)).1
  · exact (croncat_C6.2 State.init 4500).1 (by decide)

/-- C7: whenever no task is due at the current height, `proxy_call`
fails with `NoTaskReady` and commits nothing — the returned state is the
input state, so every agent's balance and all other ledger state are
unchanged and the calling agent is not penalized. -/
theorem croncat_C7 (s : State) (a : AccountId) (r : ExecResult)
    (h : s.list_due = []) :
    s.proxy_call a r = (s, some CronError.NoTaskReady) ∧
    ∀ b : AccountId, ((s.proxy_call a r).1).get_agent b = s.get_agent b := by
  have h2 := proxy_call_of_no_due s a r h
  exact ⟨h2, fun b => by rw [h2]⟩

/-- Witness for C7 at the empty initial state. -/
theorem croncat_C7_witness :
    State.init.proxy_call "a.test" ExecResult.Success
      = (State.init, some CronError.NoTaskReady) :=
  (croncat_C7 State.init "a.test" ExecResult.Success (by decide)).1

/-- C5: at most one credit per (task, slot).  With exactly one due task
and two `proxy_call` attempts by different registered agents at the same
height — serialized, per the spec's concurrency model — the first
attempt succeeds and credits exactly one reward to the first agent;
afterwards nothing is due any more, so the second attempt fails with
`NoTaskReady`, commits nothing, and leaves the second agent's balance
untouched. -/
theorem croncat_C5 (s : State) (a1 a2 : AccountId) (t : Task)
    (ag1 ag2 : Agent) (hne : a1 ≠ a2) (hdue : s.list_due = [t])
    (h1 : s.get_agent a1 = some ag1) (h2 : s.get_agent a2 = some ag2)
    (hov : ag1.balance + REWARD < U128_SIZE) :
    s.proxy_call a1 .Success
      = ((s.markExecuted t.id s.current_height).creditAgent a1, none) ∧
    (((s.markExecuted t.id s.current_height).creditAgent a1).get_agent a1).map
      Agent.balance = some (ag1.balance + REWARD) ∧
    (((s.markExecuted t.id s.current_height).creditAgent a1).get_agent a2).map
      Agent.balance = some ag2.balance ∧
    ((s.markExecuted t.id s.current_height).creditAgent a1).list_due = [] ∧
    ((s.markExecuted t.id s.current_height).creditAgent a1).proxy_call a2 .Success
      = ((s.markExecuted t.id s.current_height).creditAgent a1,
        some CronError.NoTaskReady) := by
  have hnil := list_due_after_execute s t a1 hdue
  refine ⟨?_, ?_, ?_, hnil, proxy_call_of_no_due _ a2 .Success hnil⟩
  · unfold State.proxy_call
    simp only [hdue, h1]
    rw [if_pos hov]
  · have hl : ((s.markExecuted t.id s.current_height).creditAgent a1).get_agent a1
        = ((s.markExecuted t.id s.current_height).get_agent a1).map (fun x =>
          { x with
            balance := x.balance + REWARD
            total_tasks_executed := x.total_tasks_executed + 1 }) :=
      lookup_updateAgent_self (s.markExecuted t.id s.current_height).agents a1
        (fun x => { x with
          balance := x.balance + REWARD
          total_tasks_executed := x.total_tasks_executed + 1 })
    have h1m : (s.markExecuted t.id s.current_height).get_agent a1 = some ag1 := h1
    rw [hl, h1m]
    rfl
  · have hl : ((s.markExecuted t.id s.current_height).creditAgent a1).get_agent a2
        = (s.markExecuted t.id s.current_height).get_agent a2 :=
      lookup_updateAgent_ne (s.markExecuted t.id s.current_height).agents a1 a2
        (fun x => { x with
          balance := x.balance + REWARD
          total_tasks_executed := x.total_tasks_executed + 1 })
        (Ne.symm hne)
    have h2m : (s.markExecuted t.id s.current_height).get_agent a2 = some ag2 := h2
    rw [hl, h2m]
    rfl

/-- Witness for C5 at the exercised racing scenario: the first agent's
call succeeds and the second agent's call at the same slot is refused. -/
theorem croncat_C5_witness :
    (demoRace.proxy_call demoAgent .Success).2 = none ∧
    ((demoRace.proxy_call demoAgent .Success).1.proxy_call
      "agent-2.croncat.test" .Success).2 = some CronError.NoTaskReady := by
  have h := croncat_C5 demoRace demoAgent "agent-2.croncat.test" demoTask
    ⟨.Active, demoAgent, 2260000000000000000000, 0, 0, 2260000000000000000000⟩
    ⟨.Active, "agent-2.croncat.test", 2260000000000000000000, 0, 0,
      2260000000000000000000⟩
    (by decide) (by decide) (by decide) (by decide) (by decide)
  constructor
  · rw [h.1]
  · rw [h.1]
    dsimp only
    rw [h.2.2.2.2]

/-- C8: when the delegated execution ends in `ExecutionFailed` or
`BudgetExceeded` while a task is due, the scheduler neither marks the
task executed nor credits the agent: the task table is unchanged, every
agent's balance and execution counter are unchanged, the due slot is
recorded as `last_missed_slot` on the calling agent, and the matching
recoverable error is surfaced. -/
theorem croncat_C8 (s : State) (a : AccountId) (ag : Agent) (t : Task)
    (rest : List Task) (r : ExecResult) (hdue : s.list_due = t :: rest)
    (hag : s.get_agent a = some ag) (hr : r ≠ .Success) :
    s.proxy_call a r = (s.recordMiss a (t.slot s.current_height),
      some (if r = .ExecutionFailed then CronError.ExecutionFailed
        else CronError.BudgetExceeded)) ∧
    (s.recordMiss a (t.slot s.current_height)).tasks = s.tasks ∧
    ((s.recordMiss a (t.slot s.current_height)).get_agent a).map
      Agent.last_missed_slot = some (t.slot s.current_height) ∧
    (∀ b : AccountId,
      ((s.recordMiss a (t.slot s.current_height)).get_agent b).map Agent.balance
        = (s.get_agent b).map Agent.balance) ∧
    (∀ b : AccountId,
      ((s.recordMiss a (t.slot s.current_height)).get_agent b).map
        Agent.total_tasks_executed
        = (s.get_agent b).map Agent.total_tasks_executed) := by
  refine ⟨?_, rfl, ?_, ?_, ?_⟩
  · unfold State.proxy_call
    simp only [hdue, hag]
    cases r with
    | Success => exact absurd rfl hr
    | ExecutionFailed => rfl
    | BudgetExceeded => rfl
  · have hl : (s.recordMiss a (t.slot s.current_height)).get_agent a
        = (s.get_agent a).map (fun x =>
          { x with last_missed_slot := t.slot s.current_height }) :=
      lookup_updateAgent_self s.agents a
        (fun x => { x with last_missed_slot := t.slot s.current_height })
    rw [hl, hag]
    rfl
  · intro b
    by_cases hb : b = a
    · subst hb
      have hl : (s.recordMiss b (t.slot s.current_height)).get_agent b
          = (s.get_agent b).map (fun x =>
            { x with last_missed_slot := t.slot s.current_height }) :=
        lookup_updateAgent_self s.agents b
          (fun x => { x with last_missed_slot := t.slot s.current_height })
      rw [hl]
      cases s.get_agent b <;> rfl
    · have hl : (s.recordMiss a (t.slot s.current_height)).get_agent b
          = s.get_agent b :=
        lookup_updateAgent_ne s.agents a b
          (fun x => { x with last_missed_slot := t.slot s.current_height }) hb
      rw [hl]
  · intro b
    by_cases hb : b = a
    · subst hb
      have hl : (s.recordMiss b (t.slot s.current_height)).get_agent b
          = (s.get_agent b).map (fun x =>
            { x with last_missed_slot := t.slot s.current_height }) :=
        lookup_updateAgent_self s.agents b
          (fun x => { x with last_missed_slot := t.slot s.current_height })
      rw [hl]
      cases s.get_agent b <;> rfl
    · have hl : (s.recordMiss a (t.slot s.current_height)).get_agent b
          = s.get_agent b :=
        lookup_updateAgent_ne s.agents a b
          (fun x => { x with last_missed_slot := t.slot s.current_height }) hb
      rw [hl]

/-- Witness for C8: a failed execution attempt at the exercised due state
records the missed slot (3600) and surfaces the recoverable error. -/
theorem croncat_C8_witness :
    demoS3.proxy_call demoAgent ExecResult.ExecutionFailed
      = (demoS3.recordMiss demoAgent 3600, some CronError.ExecutionFailed) ∧
    ((demoS3.recordMiss demoAgent 3600).get_agent demoAgent).map
      Agent.last_missed_slot = some 3600 := by
  have h := croncat_C8 demoS3 demoAgent
    ⟨.Active, demoAgent, 2260000000000000000000, 0, 0, 2260000000000000000000⟩
    demoTask [] ExecResult.ExecutionFailed (by decide) (by decide) (by decide)
  exact ⟨h.1, h.2.2.1⟩

/-- C3 (amended): conservation.  For an agent registered with deposit
`d`, after any trace of calls that never re-registers that account, the
agent's ledgered balance plus the total already withdrawn equals `d`
plus one fixed reward per execution counted — i.e. the balance is the
deposit plus N·REWARD minus the total withdrawn, not N·REWARD minus the
total withdrawn (see the counterexample). -/
theorem croncat_C3 (s0 s1 : State) (a : AccountId) (p : Option AccountId)
    (d : Nat) (ops : List Op) (ag : Agent)
    (hreg : s0.register_agent a p d = .ok s1)
    (hops : ∀ op ∈ ops, op.registersAgent a = false)
    (hag : (runTrace s1 ops).get_agent a = some ag) :
    ag.balance + withdrawnDuring a s1 ops
      = d + ag.total_tasks_executed * REWARD := by
  have hinv1 : agentInv a d s1 0 := by
    unfold State.register_agent at hreg
    by_cases h0 : d < MIN_STAKE
    · rw [if_pos h0] at hreg
      exact absurd hreg (by simp)
    · rw [if_neg h0] at hreg
      simp only [Except.ok.injEq] at hreg
      subst hreg
      intro ag0 hag0
      have hag0b : List.lookup a
          ((a, (⟨.Active, p.getD a, d, 0, 0, d⟩ : Agent)) :: s0.agents)
          = some ag0 := hag0
      rw [lookup_cons_self] at hag0b
      simp only [Option.some.injEq] at hag0b
      subst hag0b
      refine ⟨rfl, ?_⟩
      dsimp only
      omega
  have h := agentInv_runTrace a d ops s1 0 hops hinv1
  simp only [Nat.zero_add] at h
  exact (h ag hag).2

/-- Witness for C3 at the exercised trace (fast-forward, one successful
execution, one withdrawal): balance plus withdrawals equals the deposit
plus one reward. -/
theorem croncat_C3_witness :
    (2260000000000000000000 : Nat) + withdrawnDuring demoAgent demoS2 demoOps
      = MIN_STAKE + 1 * REWARD := by
  have h := croncat_C3 demoS1 demoS2 demoAgent none MIN_STAKE demoOps
    ⟨.Active, demoAgent, 2260000000000000000000, 1, 0, 2260000000000000000000⟩
    (by decide) (by decide) (by decide)
  exact h

/-- C3 counterexample: immediately after the exercised registration the
agent has executed no task and withdrawn nothing, yet its ledgered
balance is the deposit, not 0·REWARD − 0 = 0. -/
theorem croncat_C3_counterexample :
    (demoS2.get_agent demoAgent).map Agent.total_tasks_executed = some 0 ∧
    (demoS2.get_agent demoAgent).map Agent.balance
      = some 2260000000000000000000 ∧
    (demoS2.get_agent demoAgent).map Agent.balance ≠ some (0 * REWARD - 0) := by
  refine ⟨by decide, by decide, by decide⟩

/-- Witness for C10 at the exercised states. -/
theorem croncat_C10_witness :
    (demoS1.register_agent demoAgent none MIN_STAKE).map
      (fun s1 => (s1.get_agent demoAgent).map Agent.stake)
      = .ok (some MIN_STAKE) ∧
    (demoS6.withdraw_task_balance demoAgent).map
      (fun q => (q.2.get_agent demoAgent).map Agent.stake)
      = .ok (some 2260000000000000000000) := by
  have h := croncat_C10 demoS6 demoS1 demoAgent demoAgent none MIN_STAKE
    ⟨.Active, demoAgent, 3860000000000000000000, 2, 0, 2260000000000000000000⟩
  exact ⟨h.1 (by decide), (h.2 (by decide) (by decide)).2.2⟩

end Croncat
